import Mathlib

/-!
Shallow embedding of `src/extensions/commands/cmd_hal.py` (libhal/conan-hal-command).

The embedding models:
* the `Profile` and `BuildProfileResult` data classes;
* `version_compare` (nested helper of `generate_arm_cortex_m_profiles`),
  including the parsing step `[int(x) for x in v.split('.')]`, which raises in
  Python on malformed components — modelled by `Option`;
* the fixed compiler/architecture/build-type tables and the profile generator
  `generate_arm_cortex_m_profiles` / `generate_all_profiles`.  The Python loop
  constructs `Profile(NAME, TEXT)` inline from the loop variables; here the
  loop is factored into `generated_combos` (the loop structure, recording the
  dimensional tuples in iteration order, with the same skip test) followed by a
  rendering map `combo_to_profile` (the loop body's `NAME`/`TEXT` construction);
* `subprocess.run` at the level the commands use it (argv, `capture_output`,
  `check`, `timeout`), with an abstract per-process behaviour (duration,
  return code, streams, possible spawn error);
* the orchestrator commands `hal_build_matrix` and `hal_package`.  The
  thread-pool phase is serialized in submission order: the source collects
  results in completion order, but every property stated below concerns only
  the aggregate (result multiset, counts, exit code), which is independent of
  the interleaving.  Filesystem writes are recorded as trace fields instead of
  performed.
-/

namespace CmdHal

/-- `Profile` class (source lines 28-55): a name and the rendered profile
content.  The mutable `_build_dir` field is always set to the single
`BUILD_DIR` constant by the orchestrators; the derived paths are modelled by
the path functions below. -/
structure Profile where
  name : String
  content : String
deriving DecidableEq, Inhabited

/-- `BuildProfileResult` class (source lines 58-66): the job runner's result
is a profile name, a *boolean* success flag and an optional log path. -/
structure BuildProfileResult where
  profile_name : String
  success : Bool
  log_file : Option String
deriving DecidableEq, Inhabited

/-! ## Version comparison (source lines 110-122) -/

/-- Python `v.split('.')` on the character list: splits at every `'.'`,
keeping empty pieces (`"13.".split('.') == ["13", ""]`).  Implemented
structurally so that it evaluates definitionally. -/
def split_dot : List Char → List (List Char)
  | [] => [[]]
  | c :: rest =>
    if c = '.' then [] :: split_dot rest
    else
      match split_dot rest with
      | [] => [[c]]
      | h :: t => (c :: h) :: t

def parse_int_digits : List Char → Nat → Option Nat
  | [], acc => some acc
  | c :: rest, acc =>
    if c.isDigit then parse_int_digits rest (10 * acc + (c.toNat - 48)) else none

/-- Python `int(s)` on a version component, restricted to nonnegative decimal
numerals; `none` models the `ValueError` raised on anything else (in
particular on the empty component of `"13."`). -/
def py_int (s : List Char) : Option Nat :=
  if s = [] then none else parse_int_digits s 0

/-- `[int(x) for x in v.split('.')]`: split on `.` and parse every component
as a decimal number; `none` models the `ValueError` Python raises on a
malformed component. -/
def parse_version (v : String) : Option (List Nat) :=
  (split_dot v.data).mapM py_int

/-- Exhausted left list: every remaining right component is compared against
the padding 0, so the first positive one decides `-1`, otherwise `0`. -/
def cmpZeros : List Nat → Int
  | [] => 0
  | b :: bs => if 0 < b then -1 else cmpZeros bs

/-- The comparison loop of `version_compare`: walk both component lists left
to right, an absent component counting as 0; the first differing component
decides (`-1` / `1`), otherwise `0`. -/
def compareParts : List Nat → List Nat → Int
  | [], bs => cmpZeros bs
  | a :: as, [] => if 0 < a then 1 else compareParts as []
  | a :: as, b :: bs =>
    if a < b then -1 else if b < a then 1 else compareParts as bs

/-- `version_compare(v1, v2)`: parse both strings, then compare component
lists.  Returns `some (-1|0|1)`, or `none` when Python would raise. -/
def version_compare (v1 v2 : String) : Option Int := do
  let p1 ← parse_version v1
  let p2 ← parse_version v2
  pure (compareParts p1 p2)

/-- A version string is well formed when every `.`-separated component is a
nonempty decimal numeral. -/
def well_formed (v : String) : Bool :=
  (parse_version v).isSome

/-! ## The fixed tables (source lines 76-108) -/

structure CompilerConfig where
  cname : String
  package : String
  versions : List String
deriving DecidableEq, Inhabited

structure ArchEntry where
  arch : String
  min_version : Option String
deriving DecidableEq, Inhabited

def compilers : List CompilerConfig :=
  [⟨"gcc", "arm-gnu-toolchain", ["12.3", "13.2", "13.3", "14.2"]⟩]

def architectures : List ArchEntry :=
  [⟨"cortex-m0", none⟩,
   ⟨"cortex-m0plus", none⟩,
   ⟨"cortex-m1", none⟩,
   ⟨"cortex-m3", none⟩,
   ⟨"cortex-m4", none⟩,
   ⟨"cortex-m4f", none⟩,
   ⟨"cortex-m7", none⟩,
   ⟨"cortex-m7f", none⟩,
   ⟨"cortex-m7d", none⟩,
   ⟨"cortex-m23", none⟩,
   ⟨"cortex-m33", none⟩,
   ⟨"cortex-m33f", none⟩,
   ⟨"cortex-m35pf", none⟩,
   ⟨"cortex-m55", none⟩,
   ⟨"cortex-m85", some "13.2"⟩]

def build_types : List String := ["Debug", "Release", "MinSizeRel"]

/-- The skip test `if min_version and version_compare(version, min_version) < 0`.
`none`, like Python's falsy `None` (or an empty string), never skips; otherwise
the comparison runs and may raise (`none`). -/
def skip_version (version : String) (min_version : Option String) : Option Bool :=
  match min_version with
  | none => some false
  | some mv =>
    if mv = "" then some false
    else (version_compare version mv).map fun c => decide (c < 0)

/-! ## The generator (source lines 124-168) -/

/-- One dimensional tuple of the generation loop. -/
structure Combo where
  compiler : String
  version : String
  arch : String
  build_type : String
deriving DecidableEq, Inhabited

/-- The generation loop of `generate_arm_cortex_m_profiles`, recording the
dimensional tuples in iteration order (compiler, then architecture, then
version with the skip test, then build type).  `none` models a raised
exception (malformed version in the tables). -/
def generated_combos : Option (List Combo) := do
  let outer ← compilers.mapM fun cc => do
    let mid ← architectures.mapM fun a => do
      let inner ← cc.versions.mapM fun version => do
        let sk ← skip_version version a.min_version
        pure (if sk then ([] : List Combo)
              else build_types.map fun bt => ⟨cc.cname, version, a.arch, bt⟩)
      pure inner.flatten
    pure mid.flatten
  pure outer.flatten

/-- The full un-gated cross product of the fixed tables, in the same
iteration order as the generator. -/
def all_combos : List Combo :=
  (compilers.map fun cc =>
    (architectures.map fun a =>
      (cc.versions.map fun version =>
        build_types.map fun bt => (⟨cc.cname, version, a.arch, bt⟩ : Combo)).flatten).flatten).flatten

/-- Minimum-version lookup by architecture name (the table's own pairing). -/
def min_version_of (arch : String) : Option String :=
  match architectures.find? fun a => a.arch == arch with
  | some a => a.min_version
  | none => none

/-- The skip test applied to a combo via the architecture table. -/
def skip_combo (c : Combo) : Option Bool :=
  skip_version c.version (min_version_of c.arch)

def package_of (compiler : String) : String :=
  ((compilers.find? fun cc => cc.cname == compiler).map fun cc => cc.package).getD ""

/-- The `TEXT` f-string of the loop body (source lines 142-152). -/
def profile_text (compiler_package arch compiler version build_type : String) : String :=
  "[settings]\nos=baremetal\narch=" ++ arch ++
  "\ncompiler=" ++ compiler ++
  "\ncompiler.version=" ++ version ++
  "\ncompiler.libcxx=libstdc++11\ncompiler.cppstd=23\nbuild_type=" ++ build_type ++
  "\n\n[tool_requires]\n" ++ compiler_package ++ "/" ++ version

/-- The loop body's `Profile(NAME, TEXT)` construction:
`NAME = f"{arch}-{compiler}-{version}-{build_type}"`. -/
def combo_to_profile (c : Combo) : Profile :=
  { name := c.arch ++ "-" ++ c.compiler ++ "-" ++ c.version ++ "-" ++ c.build_type,
    content := profile_text (package_of c.compiler) c.arch c.compiler c.version c.build_type }

/-- `generate_arm_cortex_m_profiles()` (source lines 69-156). -/
def generate_arm_cortex_m_profiles : Option (List Profile) :=
  generated_combos.map fun cs => cs.map combo_to_profile

/-- `generate_all_profiles()` (source lines 159-168). -/
def generate_all_profiles : Option (List Profile) :=
  generate_arm_cortex_m_profiles

/-! ## Paths

`BUILD_PATH = Path(args.path).resolve()`, `BUILD_DIR = BUILD_PATH / "build-matrix"`,
and the `Profile` path methods `build_dir() = BUILD_DIR / name`,
`profile_path() = build_dir() / 'profile'`, `log_file() = build_dir() / 'log'`,
with `path` standing for the resolved root path. -/

def build_matrix_dir (path : String) : String := path ++ "/build-matrix"

def profile_build_dir (path : String) (p : Profile) : String :=
  build_matrix_dir path ++ "/" ++ p.name

def profile_file_path (path : String) (p : Profile) : String :=
  profile_build_dir path p ++ "/profile"

def log_file_path (path : String) (p : Profile) : String :=
  profile_build_dir path p ++ "/log"

/-! ## `subprocess.run` model

A call is the argument set the commands pass (`argv`, `capture_output`,
`check`, `text`, `timeout`); a behaviour abstracts the external process: how
long it runs, its exit status and streams, and whether spawning raised
(`OSError` and kin).  `run_subprocess` mirrors `subprocess.run`: a spawn
error raises; a process outliving the timeout raises `TimeoutExpired`; with
`check=True` a nonzero exit raises `CalledProcessError`; otherwise the
completed process is returned. -/

structure SubprocessCall where
  argv : List String
  capture_output : Bool
  check : Bool
  text : Bool
  timeout : Option Nat
deriving DecidableEq

structure ProcBehavior where
  duration : Nat
  returncode : Int
  stdout : String
  stderr : String
  spawn_error : Option String
deriving DecidableEq, Inhabited

inductive SubprocExc where
  | timeoutExpired (cmd : List String) (timeout : Nat)
  | calledProcessError (returncode : Int) (cmd : List String)
  | osError (msg : String)
deriving DecidableEq

structure CompletedProcess where
  returncode : Int
  stdout : String
  stderr : String
deriving DecidableEq

def run_subprocess (call : SubprocessCall) (b : ProcBehavior) :
    Except SubprocExc CompletedProcess :=
  match b.spawn_error with
  | some msg => .error (.osError msg)
  | none =>
    let timed_out : Bool :=
      match call.timeout with
      | some t => decide (t < b.duration)
      | none => false
    if timed_out then .error (.timeoutExpired call.argv (call.timeout.getD 0))
    else if call.check && !(b.returncode == 0) then
      .error (.calledProcessError b.returncode call.argv)
    else .ok ⟨b.returncode, b.stdout, b.stderr⟩

/-- Python `str(e)` for the caught exception, used in the `Build error: {e}`
log line.  Only the `osError` shape is reachable from the build/package jobs
(their calls use `check=False`, and `TimeoutExpired` is caught earlier). -/
def exc_message : SubprocExc → String
  | .osError m => m
  | .timeoutExpired cmd t =>
    "Command '" ++ String.intercalate " " cmd ++ "' timed out after " ++
      toString t ++ " seconds"
  | .calledProcessError rc cmd =>
    "Command '" ++ String.intercalate " " cmd ++
      "' returned non-zero exit status " ++ toString rc ++ "."

/-- The sequential install invocation (source lines 416-422):
`subprocess.run(['conan','install','.','-pr',profile_path], capture_output=True, check=True, timeout=30)`. -/
def install_call (path : String) (p : Profile) : SubprocessCall :=
  { argv := ["conan", "install", ".", "-pr", profile_file_path path p],
    capture_output := true, check := true, text := false, timeout := some 30 }

/-- The parallel build invocation (source lines 430-439): `conan build` with
`capture_output=True, text=True, timeout=300` (and no `check`). -/
def build_call (path : String) (p : Profile) : SubprocessCall :=
  { argv := ["conan", "build", path,
             "-pr", profile_file_path path p,
             "-of", profile_build_dir path p],
    capture_output := true, check := false, text := true, timeout := some 300 }

/-- The package-mode invocation (source lines 568-577): `conan create` with
`--version`, `capture_output=True, text=True, timeout=300`. -/
def create_call (path version : String) (p : Profile) : SubprocessCall :=
  { argv := ["conan", "create", path,
             "-pr", profile_file_path path p,
             "--version", version],
    capture_output := true, check := false, text := true, timeout := some 300 }

/-- The log body written on normal completion (source lines 442-448). -/
def success_log (cmd : List String) (res : CompletedProcess) : String :=
  "Command: " ++ String.intercalate " " cmd ++ "\n" ++
  "Return code: " ++ toString res.returncode ++ "\n\n" ++
  "=== STDOUT ===\n" ++ res.stdout ++
  "\n=== STDERR ===\n" ++ res.stderr

/-! ## The job runners -/

/-- `hal_build_matrix.build_profile` (source lines 424-475): run the build
command; on completion write the command/return-code/stream log and return
success iff the return code is 0; on `TimeoutExpired` write the fixed
timeout notice; on any other exception write `Build error: {e}`.  All
non-success results carry the log path; success carries `None`.  Returns the
`BuildProfileResult` and the `(log path, log content)` write. -/
def build_profile (path : String) (p : Profile) (b : ProcBehavior) :
    BuildProfileResult × (String × String) :=
  let lf := log_file_path path p
  let cmd := (build_call path p).argv
  match run_subprocess (build_call path p) b with
  | .ok res =>
    if res.returncode = 0 then
      (⟨p.name, true, none⟩, (lf, success_log cmd res))
    else
      (⟨p.name, false, some lf⟩, (lf, success_log cmd res))
  | .error (.timeoutExpired _ _) =>
    (⟨p.name, false, some lf⟩, (lf, "Build timed out after 600 seconds"))
  | .error e =>
    (⟨p.name, false, some lf⟩, (lf, "Build error: " ++ exc_message e))

/-- `hal_package.build_profile` (source lines 557-614): as `build_profile`,
for `conan create`, with package-mode log texts. -/
def package_build_profile (path version : String) (p : Profile) (b : ProcBehavior) :
    BuildProfileResult × (String × String) :=
  let lf := log_file_path path p
  let cmd := (create_call path version p).argv
  match run_subprocess (create_call path version p) b with
  | .ok res =>
    if res.returncode = 0 then
      (⟨p.name, true, none⟩, (lf, success_log cmd res))
    else
      (⟨p.name, false, some lf⟩, (lf, success_log cmd res))
  | .error (.timeoutExpired _ _) =>
    (⟨p.name, false, some lf⟩, (lf, "Package creation timed out after 300 seconds"))
  | .error e =>
    (⟨p.name, false, some lf⟩, (lf, "Package creation error: " ++ exc_message e))

/-! ## The orchestrators -/

/-- The environment a run executes against: whether `conanfile.py` exists at
the root path, and the behaviour of the external process started for the
`i`-th profile by the install phase and by the build/package phase. -/
structure MatrixEnv where
  conanfile_exists : Bool
  install_behavior : Nat → ProcBehavior
  build_behavior : Nat → ProcBehavior

inductive HalExc where
  | configError
  | subprocess (e : SubprocExc)
deriving DecidableEq

/-- Progress line logged before each install (source line 415). -/
def install_log_line (p : Profile) : String :=
  "⚙️ Running Conan Install: " ++ p.name

/-- Trace of the sequential pre-phase (source lines 405-422): per-profile
directories created, profile files written, progress lines logged and install
commands started, in order; `failure` is the first uncaught subprocess
exception, after which the loop stops. -/
structure PrePhase where
  dirs : List String
  profile_files : List (String × String)
  log_lines : List String
  installs : List (List String)
  failure : Option SubprocExc
deriving DecidableEq

def install_phase (path : String) (beh : Nat → ProcBehavior) :
    List Profile → Nat → PrePhase
  | [], _ => ⟨[], [], [], [], none⟩
  | p :: rest, i =>
    let cmd := (install_call path p).argv
    match run_subprocess (install_call path p) (beh i) with
    | .ok _ =>
      let tail := install_phase path beh rest (i + 1)
      ⟨profile_build_dir path p :: tail.dirs,
       (profile_file_path path p, p.content) :: tail.profile_files,
       install_log_line p :: tail.log_lines,
       cmd :: tail.installs,
       tail.failure⟩
    | .error e =>
      ⟨[profile_build_dir path p],
       [(profile_file_path path p, p.content)],
       [install_log_line p],
       [cmd],
       some e⟩

/-- Everything one command invocation does: error reports, directories
created, profile files written, install progress/commands, job results, job
log writes, the failure enumeration of the final summary, and the outcome —
`.ok exitCode` for a normal return, `.error` for an uncaught exception. -/
structure MatrixOutcome where
  error_reports : List String
  dirs_created : List String
  profile_files : List (String × String)
  install_logs : List String
  installs_run : List (List String)
  results : List BuildProfileResult
  logs : List (String × String)
  failures_listed : List (String × Option String)
  result : Except HalExc Int

/-- `hal_build_matrix` (source lines 357-503).  In source order: generate all
profiles (an exception there aborts), check for `conanfile.py` (missing →
report and `return 1` before any directory is created), create `BUILD_DIR`,
run the sequential install pre-phase (an uncaught exception aborts the whole
command), then run every build job — serialized here in submission order —
and finish with the summary: exit 0 when no job failed, else exit 1 with
every failure listed next to its log file.  The parsed `--continue-on-error`
flag and the `--jobs` count are accepted and never read. -/
def hal_build_matrix (path : String) (continue_on_error : Bool) (jobs : Nat)
    (env : MatrixEnv) : MatrixOutcome :=
  match generate_all_profiles with
  | none =>
    ⟨["configuration error"], [], [], [], [], [], [], [], .error .configError⟩
  | some profiles =>
    if env.conanfile_exists then
      let pre := install_phase path env.install_behavior profiles 0
      match pre.failure with
      | some e =>
        { error_reports := [],
          dirs_created := build_matrix_dir path :: pre.dirs,
          profile_files := pre.profile_files,
          install_logs := pre.log_lines,
          installs_run := pre.installs,
          results := [], logs := [], failures_listed := [],
          result := .error (.subprocess e) }
      | none =>
        let pairs := profiles.enum.map fun ip => build_profile path ip.2 (env.build_behavior ip.1)
        let results := pairs.map Prod.fst
        let failed := results.filter fun r => !r.success
        { error_reports := if failed.isEmpty then [] else ["Failed builds:"],
          dirs_created := build_matrix_dir path :: pre.dirs,
          profile_files := pre.profile_files,
          install_logs := pre.log_lines,
          installs_run := pre.installs,
          results := results,
          logs := pairs.map Prod.snd,
          failures_listed := failed.map fun r => (r.profile_name, r.log_file),
          result := .ok (if failed.isEmpty then 0 else 1) }
    else
      { error_reports := ["No conanfile.py found in " ++ path],
        dirs_created := [], profile_files := [], install_logs := [],
        installs_run := [], results := [], logs := [], failures_listed := [],
        result := .ok 1 }

/-- `hal_package` (source lines 506-642).  Same shape without the sequential
pre-phase: each job materializes its own directory and profile file before
running `conan create`.  `--continue-on-error` is likewise parsed and never
read. -/
def hal_package (path version : String) (continue_on_error : Bool) (jobs : Nat)
    (env : MatrixEnv) : MatrixOutcome :=
  match generate_all_profiles with
  | none =>
    ⟨["configuration error"], [], [], [], [], [], [], [], .error .configError⟩
  | some profiles =>
    if env.conanfile_exists then
      let pairs := profiles.enum.map fun ip =>
        package_build_profile path version ip.2 (env.build_behavior ip.1)
      let results := pairs.map Prod.fst
      let failed := results.filter fun r => !r.success
      { error_reports := if failed.isEmpty then [] else ["Failed packages:"],
        dirs_created := build_matrix_dir path :: profiles.map (profile_build_dir path),
        profile_files := profiles.map fun p => (profile_file_path path p, p.content),
        install_logs := [],
        installs_run := [],
        results := results,
        logs := pairs.map Prod.snd,
        failures_listed := failed.map fun r => (r.profile_name, r.log_file),
        result := .ok (if failed.isEmpty then 0 else 1) }
    else
      { error_reports := ["No conanfile.py found in " ++ path],
        dirs_created := [], profile_files := [], install_logs := [],
        installs_run := [], results := [], logs := [], failures_listed := [],
        result := .ok 1 }

/-! ## Auxiliary definitions for the verification layer -/

/-- A numeric fingerprint of a string: its characters folded in base
0x110000 (one slot per Unicode scalar value), so distinct fingerprints imply
distinct strings. -/
def str_key (s : String) : Nat :=
  s.data.foldl (fun a c => a * 1114112 + c.toNat) 1

def nodup_check : List Nat → Bool
  | [] => true
  | x :: xs => !(xs.any fun y => x == y) && nodup_check xs

/-- A behaviour that counts as successful completion against a wall-clock
timeout `t`: the process spawns, finishes within `t` and exits 0. -/
def completes_ok (t : Nat) (b : ProcBehavior) : Bool :=
  b.spawn_error.isNone && decide (b.duration ≤ t) && (b.returncode == 0)

def gen_profiles : List Profile := (generated_combos.getD []).map combo_to_profile

/-- All external commands succeed instantly. -/
def env_all_ok : MatrixEnv :=
  ⟨true, fun _ => ⟨0, 0, "", "", none⟩, fun _ => ⟨0, 0, "", "", none⟩⟩

/-- Every install exits with status 1 (so the first one aborts the run). -/
def env_install_fails : MatrixEnv :=
  ⟨true, fun _ => ⟨0, 1, "", "", none⟩, fun _ => ⟨0, 0, "", "", none⟩⟩

/-- Every install takes 31 seconds, exceeding the 30-second install timeout. -/
def env_install_slow : MatrixEnv :=
  ⟨true, fun _ => ⟨31, 0, "", "", none⟩, fun _ => ⟨0, 0, "", "", none⟩⟩

/-! ## Theorems: version comparison (C4) -/

theorem cmpZeros_eq_zero_iff (l : List Nat) : cmpZeros l = 0 ↔ ∀ i, l.getD i 0 = 0 := by
  induction l with
  | nil => simp [cmpZeros]
  | cons x xs ih =>
    by_cases hx : 0 < x
    · simp only [cmpZeros, if_pos hx]
      constructor
      · intro h; omega
      · intro h
        have := h 0
        simp [List.getD_cons_zero] at this
        omega
    · have hx0 : x = 0 := by omega
      simp only [cmpZeros, if_neg hx, ih]
      constructor
      · intro h i
        cases i with
        | zero => simpa [List.getD_cons_zero] using hx0
        | succ n => simpa [List.getD_cons_succ] using h n
      · intro h i
        simpa [List.getD_cons_succ] using h (i + 1)

theorem cmpZeros_eq_neg_one_iff (l : List Nat) :
    cmpZeros l = -1 ↔ ∃ i, (∀ j < i, l.getD j 0 = 0) ∧ 0 < l.getD i 0 := by
  induction l with
  | nil => simp [cmpZeros]
  | cons x xs ih =>
    by_cases hx : 0 < x
    · simp only [cmpZeros, if_pos hx]
      constructor
      · intro _
        exact ⟨0, by omega, by simpa [List.getD_cons_zero] using hx⟩
      · intro _; trivial
    · have hx0 : x = 0 := by omega
      simp only [cmpZeros, if_neg hx, ih]
      constructor
      · rintro ⟨i, hpre, hpos⟩
        refine ⟨i + 1, ?_, by simpa [List.getD_cons_succ] using hpos⟩
        intro j hj
        cases j with
        | zero => simpa [List.getD_cons_zero] using hx0
        | succ n => simpa [List.getD_cons_succ] using hpre n (by omega)
      · rintro ⟨i, hpre, hpos⟩
        cases i with
        | zero => simp [List.getD_cons_zero, hx0] at hpos
        | succ n =>
          refine ⟨n, ?_, by simpa [List.getD_cons_succ] using hpos⟩
          intro j hj
          simpa [List.getD_cons_succ] using hpre (j + 1) (by omega)

theorem cmpZeros_range (l : List Nat) : cmpZeros l = -1 ∨ cmpZeros l = 0 := by
  induction l with
  | nil => simp [cmpZeros]
  | cons x xs ih =>
    by_cases hx : 0 < x
    · simp [cmpZeros, if_pos hx]
    · simpa [cmpZeros, if_neg hx] using ih

theorem compareParts_nil_right (l : List Nat) : compareParts l [] = -(cmpZeros l) := by
  induction l with
  | nil => simp [compareParts, cmpZeros]
  | cons x xs ih =>
    by_cases hx : 0 < x
    · simp [compareParts, cmpZeros, if_pos hx]
    · simpa [compareParts, cmpZeros, if_neg hx] using ih

theorem compareParts_range (a b : List Nat) :
    compareParts a b = -1 ∨ compareParts a b = 0 ∨ compareParts a b = 1 := by
  induction a generalizing b with
  | nil =>
    rcases cmpZeros_range b with h | h <;> simp [compareParts, h]
  | cons x xs ih =>
    cases b with
    | nil =>
      by_cases hx : 0 < x
      · simp [compareParts, if_pos hx]
      · simpa [compareParts, if_neg hx] using ih []
    | cons y ys =>
      by_cases hxy : x < y
      · simp [compareParts, if_pos hxy]
      · by_cases hyx : y < x
        · simp [compareParts, if_neg hxy, if_pos hyx]
        · simpa [compareParts, if_neg hxy, if_neg hyx] using ih ys

theorem compareParts_swap (a b : List Nat) : compareParts b a = -(compareParts a b) := by
  induction a generalizing b with
  | nil => simp [compareParts, compareParts_nil_right]
  | cons x xs ih =>
    cases b with
    | nil =>
      have h1 : compareParts ([] : List Nat) (x :: xs) = cmpZeros (x :: xs) := rfl
      rw [h1, compareParts_nil_right]
      omega
    | cons y ys =>
      by_cases hxy : x < y
      · have hyx : ¬ y < x := by omega
        simp [compareParts, if_pos hxy, if_neg hyx]
      · by_cases hyx : y < x
        · simp [compareParts, if_neg hxy, if_pos hyx]
        · simpa [compareParts, if_neg hxy, if_neg hyx] using ih ys

theorem compareParts_eq_zero_iff (a b : List Nat) :
    compareParts a b = 0 ↔ ∀ i, a.getD i 0 = b.getD i 0 := by
  induction a generalizing b with
  | nil =>
    have h1 : compareParts ([] : List Nat) b = cmpZeros b := rfl
    rw [h1, cmpZeros_eq_zero_iff]
    constructor
    · intro h i
      rw [List.getD_nil]
      exact (h i).symm
    · intro h i
      have := h i
      rw [List.getD_nil] at this
      omega
  | cons x xs ih =>
    cases b with
    | nil =>
      rw [compareParts_nil_right]
      constructor
      · intro h i
        have : cmpZeros (x :: xs) = 0 := by omega
        simpa using ((cmpZeros_eq_zero_iff _).1 this i)
      · intro h
        have : cmpZeros (x :: xs) = 0 := (cmpZeros_eq_zero_iff _).2 fun i => by
          simpa using h i
        omega
    | cons y ys =>
      by_cases hxy : x < y
      · simp only [compareParts, if_pos hxy]
        constructor
        · intro h; omega
        · intro h
          have := h 0
          simp [List.getD_cons_zero] at this
          omega
      · by_cases hyx : y < x
        · simp only [compareParts, if_neg hxy, if_pos hyx]
          constructor
          · intro h; omega
          · intro h
            have := h 0
            simp [List.getD_cons_zero] at this
            omega
        · have hxy0 : x = y := by omega
          simp only [compareParts, if_neg hxy, if_neg hyx, ih ys]
          constructor
          · intro h i
            cases i with
            | zero => simpa [List.getD_cons_zero] using hxy0
            | succ n => simpa [List.getD_cons_succ] using h n
          · intro h i
            simpa [List.getD_cons_succ] using h (i + 1)

theorem compareParts_eq_neg_one_iff (a b : List Nat) :
    compareParts a b = -1 ↔
      ∃ i, (∀ j < i, a.getD j 0 = b.getD j 0) ∧ a.getD i 0 < b.getD i 0 := by
  induction a generalizing b with
  | nil =>
    have h1 : compareParts ([] : List Nat) b = cmpZeros b := rfl
    rw [h1, cmpZeros_eq_neg_one_iff]
    constructor
    · rintro ⟨i, hpre, hpos⟩
      exact ⟨i, fun j hj => by simpa using (hpre j hj).symm, by simpa using hpos⟩
    · rintro ⟨i, hpre, hpos⟩
      exact ⟨i, fun j hj => by simpa using (hpre j hj).symm, by simpa using hpos⟩
  | cons x xs ih =>
    cases b with
    | nil =>
      rw [compareParts_nil_right]
      constructor
      · intro h
        have h0 : cmpZeros (x :: xs) = 1 := by omega
        rcases cmpZeros_range (x :: xs) with hr | hr <;> omega
      · rintro ⟨i, hpre, hpos⟩
        simp [List.getD_nil] at hpos
    | cons y ys =>
      by_cases hxy : x < y
      · simp only [compareParts, if_pos hxy]
        constructor
        · intro _
          exact ⟨0, by omega, by simpa [List.getD_cons_zero] using hxy⟩
        · intro _; trivial
      · by_cases hyx : y < x
        · simp only [compareParts, if_neg hxy, if_pos hyx]
          constructor
          · intro h; omega
          · rintro ⟨i, hpre, hpos⟩
            cases i with
            | zero => simp [List.getD_cons_zero] at hpos; omega
            | succ n =>
              have := hpre 0 (by omega)
              simp [List.getD_cons_zero] at this
              omega
        · have hxy0 : x = y := by omega
          simp only [compareParts, if_neg hxy, if_neg hyx, ih ys]
          constructor
          · rintro ⟨i, hpre, hpos⟩
            refine ⟨i + 1, ?_, by simpa [List.getD_cons_succ] using hpos⟩
            intro j hj
            cases j with
            | zero => simpa [List.getD_cons_zero] using hxy0
            | succ n => simpa [List.getD_cons_succ] using hpre n (by omega)
          · rintro ⟨i, hpre, hpos⟩
            cases i with
            | zero => simp [List.getD_cons_zero, hxy0] at hpos
            | succ n =>
              refine ⟨n, ?_, by simpa [List.getD_cons_succ] using hpos⟩
              intro j hj
              simpa [List.getD_cons_succ] using hpre (j + 1) (by omega)

theorem compareParts_trans (a b c : List Nat)
    (hab : compareParts a b = -1) (hbc : compareParts b c = -1) :
    compareParts a c = -1 := by
  rw [compareParts_eq_neg_one_iff] at hab hbc ⊢
  rcases hab with ⟨i, hpab, hlab⟩
  rcases hbc with ⟨k, hpbc, hlbc⟩
  by_cases hik : i ≤ k
  · refine ⟨i, ?_, ?_⟩
    · intro j hj
      rw [hpab j hj, hpbc j (by omega)]
    · rcases Nat.lt_or_ge i k with hlt | hge
      · have := hpbc i hlt
        omega
      · have hik' : i = k := by omega
        subst hik'
        omega
  · refine ⟨k, ?_, ?_⟩
    · intro j hj
      rw [hpab j (by omega), hpbc j hj]
    · have := hpab k (by omega)
      omega



theorem version_compare_eq_of_parse (v1 v2 : String) (p1 p2 : List Nat)
    (h1 : parse_version v1 = some p1) (h2 : parse_version v2 = some p2) :
    version_compare v1 v2 = some (compareParts p1 p2) := by
  simp [version_compare, h1, h2]

/-- C4: `version_compare` is a total order on well-formed dotted-numeric
version strings. -/
theorem version_compare_total_order (v v1 v2 v3 : String)
    (hv : well_formed v = true) (h1 : well_formed v1 = true)
    (h2 : well_formed v2 = true) (h3 : well_formed v3 = true) :
    version_compare v v = some 0 ∧
    (∃ c, version_compare v1 v2 = some c ∧ (c = -1 ∨ c = 0 ∨ c = 1)) ∧
    (∀ c, version_compare v1 v2 = some c → version_compare v2 v1 = some (-c)) ∧
    (version_compare v1 v2 = some (-1) → version_compare v2 v3 = some (-1) →
      version_compare v1 v3 = some (-1)) ∧
    (version_compare v1 v2 = some 0 ↔
      ∀ i, ((parse_version v1).getD []).getD i 0 =
        ((parse_version v2).getD []).getD i 0) ∧
    (version_compare v1 v2 = some (-1) ↔
      ∃ i, (∀ j < i, ((parse_version v1).getD []).getD j 0 =
              ((parse_version v2).getD []).getD j 0) ∧
        ((parse_version v1).getD []).getD i 0 <
          ((parse_version v2).getD []).getD i 0) ∧
    version_compare "13" "13.0" = some 0 ∧
    version_compare "13.2" "13.3" = some (-1) ∧
    version_compare "13.3" "14.2" = some (-1) := by
  simp only [well_formed, Option.isSome_iff_exists] at hv h1 h2 h3
  rcases hv with ⟨pv, hpv⟩
  rcases h1 with ⟨p1, hp1⟩
  rcases h2 with ⟨p2, hp2⟩
  rcases h3 with ⟨p3, hp3⟩
  have e11 := version_compare_eq_of_parse v v pv pv hpv hpv
  have e12 := version_compare_eq_of_parse v1 v2 p1 p2 hp1 hp2
  have e21 := version_compare_eq_of_parse v2 v1 p2 p1 hp2 hp1
  have e23 := version_compare_eq_of_parse v2 v3 p2 p3 hp2 hp3
  have e13 := version_compare_eq_of_parse v1 v3 p1 p3 hp1 hp3
  refine ⟨?_, ?_, ?_, ?_, ?_, ?_, rfl, rfl, rfl⟩
  · rw [e11]
    exact congrArg some ((compareParts_eq_zero_iff pv pv).2 fun i => rfl)
  · exact ⟨compareParts p1 p2, e12, compareParts_range p1 p2⟩
  · intro c hc
    rw [e12] at hc
    rw [e21, compareParts_swap]
    exact congrArg some (congrArg Neg.neg (Option.some.inj hc))
  · intro hab hbc
    rw [e12] at hab
    rw [e23] at hbc
    rw [e13]
    exact congrArg some
      (compareParts_trans p1 p2 p3 (Option.some.inj hab) (Option.some.inj hbc))
  · rw [e12, hp1, hp2]
    simp only [Option.getD_some]
    constructor
    · intro h
      exact (compareParts_eq_zero_iff p1 p2).1 (Option.some.inj h)
    · intro h
      exact congrArg some ((compareParts_eq_zero_iff p1 p2).2 h)
  · rw [e12, hp1, hp2]
    simp only [Option.getD_some]
    constructor
    · intro h
      exact (compareParts_eq_neg_one_iff p1 p2).1 (Option.some.inj h)
    · intro h
      exact congrArg some ((compareParts_eq_neg_one_iff p1 p2).2 h)

theorem version_compare_total_order_witness :
    well_formed "13" = true ∧ well_formed "13.2" = true ∧
    well_formed "13.3" = true ∧ well_formed "14.2" = true ∧
    (version_compare "13" "13" = some 0 ∧
    (∃ c, version_compare "13.2" "13.3" = some c ∧ (c = -1 ∨ c = 0 ∨ c = 1)) ∧
    (∀ c, version_compare "13.2" "13.3" = some c →
      version_compare "13.3" "13.2" = some (-c)) ∧
    (version_compare "13.2" "13.3" = some (-1) →
      version_compare "13.3" "14.2" = some (-1) →
      version_compare "13.2" "14.2" = some (-1)) ∧
    (version_compare "13.2" "13.3" = some 0 ↔
      ∀ i, ((parse_version "13.2").getD []).getD i 0 =
        ((parse_version "13.3").getD []).getD i 0) ∧
    (version_compare "13.2" "13.3" = some (-1) ↔
      ∃ i, (∀ j < i, ((parse_version "13.2").getD []).getD j 0 =
              ((parse_version "13.3").getD []).getD j 0) ∧
        ((parse_version "13.2").getD []).getD i 0 <
          ((parse_version "13.3").getD []).getD i 0) ∧
    version_compare "13" "13.0" = some 0 ∧
    version_compare "13.2" "13.3" = some (-1) ∧
    version_compare "13.3" "14.2" = some (-1)) :=
  ⟨by decide, by decide, by decide, by decide,
   version_compare_total_order "13" "13.2" "13.3" "14.2"
     (by decide) (by decide) (by decide) (by decide)⟩

/-! ## Theorems: the generator (C3, C5) -/

set_option maxRecDepth 100000 in
theorem generated_combos_eval :
    generated_combos = some (all_combos.filter fun c => skip_combo c == some false) := by
  rfl

set_option maxRecDepth 100000 in
set_option maxHeartbeats 1000000 in
/-- C3: an architecture entry with a minimum compiler version gates out
exactly the versions strictly below it; every other combination from the
fixed tables is emitted, and the emitted ProfileSpecs are the rendered
combinations. -/
theorem generator_min_version_gating (cs : List Combo)
    (h : generated_combos = some cs) :
    (∀ c ∈ cs, ∀ m, min_version_of c.arch = some m →
      version_compare c.version m ≠ some (-1)) ∧
    cs = all_combos.filter (fun c => skip_combo c == some false) ∧
    generate_arm_cortex_m_profiles = some (cs.map combo_to_profile) := by
  rw [generated_combos_eval] at h
  obtain rfl := (Option.some.inj h).symm
  refine ⟨by decide, rfl, by rfl⟩

set_option maxRecDepth 100000 in
set_option maxHeartbeats 1000000 in
theorem generator_min_version_gating_witness :
    (∀ c ∈ all_combos.filter (fun c => skip_combo c == some false),
      ∀ m, min_version_of c.arch = some m →
        version_compare c.version m ≠ some (-1)) ∧
    all_combos.filter (fun c => skip_combo c == some false) =
      all_combos.filter (fun c => skip_combo c == some false) ∧
    generate_arm_cortex_m_profiles =
      some ((all_combos.filter (fun c => skip_combo c == some false)).map combo_to_profile) :=
  generator_min_version_gating
    (all_combos.filter (fun c => skip_combo c == some false)) generated_combos_eval

theorem nodup_check_sound (l : List Nat) (h : nodup_check l = true) : l.Nodup := by
  induction l with
  | nil => exact List.nodup_nil
  | cons x xs ih =>
    simp only [nodup_check, Bool.and_eq_true] at h
    refine List.Nodup.cons (fun hmem => ?_) (ih h.2)
    have hany : xs.any (fun y => x == y) = true := List.any_eq_true.2 ⟨x, hmem, by simp⟩
    rw [hany] at h
    simp at h

set_option maxRecDepth 100000 in
set_option maxHeartbeats 4000000 in
/-- C5: the names of the generated profiles are pairwise distinct, and so are
the underlying dimensional tuples. -/
theorem generated_profile_names_nodup (ps : List Profile)
    (h : generate_arm_cortex_m_profiles = some ps) :
    (ps.map Profile.name).Nodup ∧
    (∀ cs, generated_combos = some cs → cs.Nodup) := by
  have hval : generate_arm_cortex_m_profiles =
      some ((generated_combos.getD []).map combo_to_profile) := by rfl
  rw [hval] at h
  obtain rfl := (Option.some.inj h).symm
  have hnames :
      nodup_check ((((generated_combos.getD []).map combo_to_profile).map Profile.name).map
        str_key) = true := by rfl
  have h1 : (((generated_combos.getD []).map combo_to_profile).map Profile.name).Nodup :=
    List.Nodup.of_map str_key (nodup_check_sound _ hnames)
  refine ⟨h1, ?_⟩
  intro cs hcs
  have hcs' : cs = generated_combos.getD [] := by
    have hg : generated_combos = some (generated_combos.getD []) := rfl
    rw [hg] at hcs
    exact (Option.some.inj hcs).symm
  subst hcs'
  rw [List.map_map] at h1
  exact List.Nodup.of_map _ h1

set_option maxRecDepth 100000 in
set_option maxHeartbeats 1000000 in
theorem generated_profile_names_nodup_witness :
    ((((generated_combos.getD []).map combo_to_profile)).map Profile.name).Nodup ∧
    (∀ cs, generated_combos = some cs → cs.Nodup) :=
  generated_profile_names_nodup ((generated_combos.getD []).map combo_to_profile) (by rfl)

/-! ## Theorems: the job runner (C1, C8) -/

/-- C1 counterexample: a job whose command exceeds the 300-second timeout
returns *the same* `BuildProfileResult` as a job whose command exits with
status 1 — the timeout has no status of its own, both collapse to
`success = False` with the same log path. -/
theorem timeout_result_indistinguishable_from_failure :
    (build_profile "/proj" ⟨"cortex-m0-gcc-12.3-Debug", "c"⟩
        ⟨301, 0, "", "", none⟩).1 =
      (build_profile "/proj" ⟨"cortex-m0-gcc-12.3-Debug", "c"⟩
        ⟨0, 1, "", "", none⟩).1 ∧
    (build_profile "/proj" ⟨"cortex-m0-gcc-12.3-Debug", "c"⟩
        ⟨301, 0, "", "", none⟩).1.success = false := by
  exact ⟨rfl, rfl⟩

/-- C1 (amended): the job runner classifies every outcome into the two-valued
`success` flag: `true` exactly when the command spawns, finishes within the
300-second timeout and exits 0; non-zero exits, timeouts and spawn errors all
yield `success = false` with the log path recorded, distinguished only by the
log text, never by the returned result. -/
theorem build_profile_boolean_classification (path : String) (p : Profile)
    (b : ProcBehavior) :
    ((build_profile path p b).1).profile_name = p.name ∧
    ((build_profile path p b).1).success = completes_ok 300 b ∧
    ((build_profile path p b).1).log_file =
      (if completes_ok 300 b = true then none else some (log_file_path path p)) := by
  rcases hsp : b.spawn_error with _ | m
  · by_cases hd : 300 < b.duration
    · have hd' : decide (b.duration ≤ 300) = false := by
        simp
        omega
      simp [build_profile, run_subprocess, build_call, completes_ok, hsp, hd, hd']
    · have hd' : decide (b.duration ≤ 300) = true := by
        simp
        omega
      have hd2 : decide (300 < b.duration) = false := by
        simp
        omega
      by_cases hrc : b.returncode = 0
      · simp [build_profile, run_subprocess, build_call, completes_ok, hsp, hd2, hd', hrc]
      · simp [build_profile, run_subprocess, build_call, completes_ok, hsp, hd2, hd', hrc]
  · simp [build_profile, run_subprocess, build_call, completes_ok, hsp]

/-- C8: the timeout handed to `subprocess.run` for a build job is 300
seconds, yet the log written when that timeout fires reads
`Build timed out after 600 seconds`. -/
theorem build_timeout_misreported (path : String) (p : Profile) (b : ProcBehavior)
    (hspawn : b.spawn_error = none) (hdur : 300 < b.duration) :
    (build_call path p).timeout = some 300 ∧
    (build_profile path p b).2 =
      (log_file_path path p, "Build timed out after 600 seconds") := by
  have hd : decide (300 < b.duration) = true := by
    simp
    omega
  exact ⟨rfl, by simp [build_profile, run_subprocess, build_call, hspawn, hd]⟩

theorem build_timeout_misreported_witness :
    (build_call "/proj" ⟨"n", "c"⟩).timeout = some 300 ∧
    (build_profile "/proj" ⟨"n", "c"⟩ ⟨301, 0, "", "", none⟩).2 =
      (log_file_path "/proj" ⟨"n", "c"⟩, "Build timed out after 600 seconds") :=
  build_timeout_misreported "/proj" ⟨"n", "c"⟩ ⟨301, 0, "", "", none⟩ rfl (by decide)

/-! ## Theorems: the orchestrators (C2, C6, C7, C9, C10) -/

set_option maxRecDepth 100000 in
theorem generate_all_profiles_eq_gen : generate_all_profiles = some gen_profiles := by
  rfl

/-- C9: `--continue-on-error` is parsed by both commands and read by
neither: with it and without it every field of the outcome — per-job results,
logs, summary failure list and exit code — is identical. -/
theorem continue_on_error_no_effect (path version : String) (jobs : Nat)
    (env : MatrixEnv) :
    hal_build_matrix path true jobs env = hal_build_matrix path false jobs env ∧
    hal_package path version true jobs env = hal_package path version false jobs env :=
  ⟨rfl, rfl⟩

/-- C6: without `conanfile.py` at the root, both commands report the error
and return exit code 1 having created no directory at all. -/
theorem missing_conanfile_no_dirs (path version : String) (c1 c2 : Bool)
    (j1 j2 : Nat) (env : MatrixEnv) (h : env.conanfile_exists = false) :
    (hal_build_matrix path c1 j1 env).result = .ok 1 ∧
    (hal_build_matrix path c1 j1 env).dirs_created = [] ∧
    (hal_build_matrix path c1 j1 env).error_reports =
      ["No conanfile.py found in " ++ path] ∧
    (hal_package path version c2 j2 env).result = .ok 1 ∧
    (hal_package path version c2 j2 env).dirs_created = [] ∧
    (hal_package path version c2 j2 env).error_reports =
      ["No conanfile.py found in " ++ path] := by
  refine ⟨?_, ?_, ?_, ?_, ?_, ?_⟩ <;>
    simp [hal_build_matrix, hal_package, generate_all_profiles_eq_gen, h]

theorem missing_conanfile_no_dirs_witness :
    (hal_build_matrix "/proj" false 4
        ⟨false, fun _ => default, fun _ => default⟩).result = .ok 1 ∧
    (hal_build_matrix "/proj" false 4
        ⟨false, fun _ => default, fun _ => default⟩).dirs_created = [] ∧
    (hal_build_matrix "/proj" false 4
        ⟨false, fun _ => default, fun _ => default⟩).error_reports =
      ["No conanfile.py found in " ++ "/proj"] ∧
    (hal_package "/proj" "1.0.0" false 4
        ⟨false, fun _ => default, fun _ => default⟩).result = .ok 1 ∧
    (hal_package "/proj" "1.0.0" false 4
        ⟨false, fun _ => default, fun _ => default⟩).dirs_created = [] ∧
    (hal_package "/proj" "1.0.0" false 4
        ⟨false, fun _ => default, fun _ => default⟩).error_reports =
      ["No conanfile.py found in " ++ "/proj"] :=
  missing_conanfile_no_dirs "/proj" "1.0.0" false false 4 4
    ⟨false, fun _ => default, fun _ => default⟩ rfl

theorem run_install_ok (path : String) (p : Profile) (b : ProcBehavior)
    (h : completes_ok 30 b = true) :
    run_subprocess (install_call path p) b = .ok ⟨b.returncode, b.stdout, b.stderr⟩ := by
  simp only [completes_ok, Bool.and_eq_true, Option.isNone_iff_eq_none,
    decide_eq_true_eq, beq_iff_eq] at h
  obtain ⟨⟨h1, h2⟩, h3⟩ := h
  have hd : decide (30 < b.duration) = false := by
    simp
    omega
  simp [run_subprocess, install_call, h1, h3, hd]

theorem run_install_error (path : String) (p : Profile) (b : ProcBehavior)
    (h : completes_ok 30 b = false) :
    ∃ e, run_subprocess (install_call path p) b = .error e := by
  rcases hsp : b.spawn_error with _ | m
  · by_cases hd : 30 < b.duration
    · have hd' : decide (30 < b.duration) = true := by
        simp
        omega
      refine ⟨.timeoutExpired (install_call path p).argv 30, ?_⟩
      simp [run_subprocess, install_call, hsp, hd']
    · have hrc : b.returncode ≠ 0 := by
        intro hrc0
        rw [completes_ok, hsp, hrc0] at h
        simp at h
        omega
      have hd' : decide (30 < b.duration) = false := by
        simp
        omega
      refine ⟨.calledProcessError b.returncode (install_call path p).argv, ?_⟩
      simp [run_subprocess, install_call, hsp, hd', hrc]
  · exact ⟨.osError m, by simp [run_subprocess, hsp]⟩

theorem install_phase_all_ok (path : String) (beh : Nat → ProcBehavior)
    (ps : List Profile) (i : Nat)
    (h : ∀ k, completes_ok 30 (beh k) = true) :
    install_phase path beh ps i =
      ⟨ps.map (profile_build_dir path),
       ps.map (fun p => (profile_file_path path p, p.content)),
       ps.map install_log_line,
       ps.map (fun p => (install_call path p).argv),
       none⟩ := by
  induction ps generalizing i with
  | nil => rfl
  | cons p rest ih =>
    simp only [install_phase, run_install_ok path p (beh i) (h i), ih (i + 1), List.map_cons]

theorem getLast?_cons_ne_nil {α : Type} (a : α) (l : List α) (h : l ≠ []) :
    (a :: l).getLast? = l.getLast? := by
  cases l with
  | nil => exact absurd rfl h
  | cons b t => exact List.getLast?_cons_cons

theorem install_phase_fails_at (path : String) (beh : Nat → ProcBehavior) :
    ∀ (ps : List Profile) (i0 n : Nat) (q : Profile),
    (∀ k, k < n → completes_ok 30 (beh (i0 + k)) = true) →
    completes_ok 30 (beh (i0 + n)) = false →
    ps.get? n = some q →
    ∃ e, install_phase path beh ps i0 =
      ⟨(ps.take (n + 1)).map (profile_build_dir path),
       (ps.take (n + 1)).map (fun p => (profile_file_path path p, p.content)),
       (ps.take (n + 1)).map install_log_line,
       (ps.take (n + 1)).map (fun p => (install_call path p).argv),
       some e⟩ ∧
      ((ps.take (n + 1)).map install_log_line).getLast? =
        some (install_log_line q) := by
  intro ps
  induction ps with
  | nil =>
    intro i0 n q hok hfail hq
    simp at hq
  | cons p rest ih =>
    intro i0 n q hok hfail hq
    cases n with
    | zero =>
      have hq' : p = q := by simpa using hq
      subst hq'
      have hfail0 : completes_ok 30 (beh i0) = false := by simpa using hfail
      obtain ⟨e, he⟩ := run_install_error path p (beh i0) hfail0
      refine ⟨e, ?_, ?_⟩
      · simp only [install_phase, he, List.take, List.map_cons, List.map_nil]
      · simp [List.take]
    | succ m =>
      simp only [List.get?] at hq
      have hok0 : completes_ok 30 (beh i0) = true := by
        have := hok 0 (by omega)
        simpa using this
      have hok' : ∀ k, k < m → completes_ok 30 (beh (i0 + 1 + k)) = true := by
        intro k hk
        have := hok (k + 1) (by omega)
        have harg : i0 + (k + 1) = i0 + 1 + k := by omega
        rwa [harg] at this
      have hfail' : completes_ok 30 (beh (i0 + 1 + m)) = false := by
        have harg : i0 + (m + 1) = i0 + 1 + m := by omega
        rwa [harg] at hfail
      obtain ⟨e, he, hlast⟩ := ih (i0 + 1) m q hok' hfail' hq
      refine ⟨e, ?_, ?_⟩
      · simp only [install_phase, run_install_ok path p (beh i0) hok0, he, List.take,
          List.map_cons]
      · have hne : (rest.take (m + 1)).map install_log_line ≠ [] := by
          intro hcon
          rw [hcon] at hlast
          simp at hlast
        simp only [List.take, List.map_cons]
        rw [getLast?_cons_ne_nil _ _ hne]
        exact hlast

theorem summary_spec (results : List BuildProfileResult) :
    ((Except.ok (if (results.filter fun r => !r.success).isEmpty then (0 : Int) else 1) :
        Except HalExc Int) = .ok 0 ↔ ∀ r ∈ results, r.success = true) ∧
    ((Except.ok (if (results.filter fun r => !r.success).isEmpty then (0 : Int) else 1) :
        Except HalExc Int) = .ok 1 ↔ ∃ r ∈ results, r.success = false) ∧
    ((Except.ok (if (results.filter fun r => !r.success).isEmpty then (0 : Int) else 1) :
        Except HalExc Int) = .ok 0 ∨
      (Except.ok (if (results.filter fun r => !r.success).isEmpty then (0 : Int) else 1) :
        Except HalExc Int) = .ok 1) := by
  cases hF : (results.filter fun r => !r.success).isEmpty with
  | true =>
    have h0 : results.filter (fun r => !r.success) = [] := List.isEmpty_iff.1 hF
    have hall : ∀ r ∈ results, r.success = true := by
      intro r hr
      have := List.filter_eq_nil_iff.1 h0 r hr
      simpa using this
    refine ⟨?_, ?_, ?_⟩
    · constructor
      · intro _
        exact hall
      · intro _
        simp [hF]
    · constructor
      · intro h
        simp [hF] at h
      · rintro ⟨r, hr, hrs⟩
        rw [hall r hr] at hrs
        exact absurd hrs (by simp)
    · left
      simp [hF]
  | false =>
    have hne : results.filter (fun r => !r.success) ≠ [] := by
      intro hc
      rw [hc] at hF
      simp at hF
    obtain ⟨r0, hr0⟩ := List.exists_mem_of_ne_nil _ hne
    have hr0m := List.mem_filter.1 hr0
    have hex : ∃ r ∈ results, r.success = false := ⟨r0, hr0m.1, by simpa using hr0m.2⟩
    refine ⟨?_, ?_, ?_⟩
    · constructor
      · intro h
        simp [hF] at h
      · intro hall
        have hnil : results.filter (fun r => !r.success) = [] :=
          List.filter_eq_nil_iff.2 (fun r hr => by simp [hall r hr])
        exact absurd hnil hne
    · constructor
      · intro _
        exact hex
      · intro _
        simp [hF]
    · right
      simp [hF]

/-- C2: when the run reaches the parallel phase, the exit code is 0 exactly
when every job succeeded and 1 exactly when some job failed, and the final
summary enumerates precisely the failed results, each with its log path. -/
theorem build_matrix_exit_code_iff (path : String) (c : Bool) (j : Nat)
    (env : MatrixEnv)
    (hcon : env.conanfile_exists = true)
    (hinst : ∀ k, completes_ok 30 (env.install_behavior k) = true) :
    ((hal_build_matrix path c j env).result = .ok 0 ↔
      ∀ r ∈ (hal_build_matrix path c j env).results, r.success = true) ∧
    ((hal_build_matrix path c j env).result = .ok 1 ↔
      ∃ r ∈ (hal_build_matrix path c j env).results, r.success = false) ∧
    ((hal_build_matrix path c j env).result = .ok 0 ∨
      (hal_build_matrix path c j env).result = .ok 1) ∧
    (hal_build_matrix path c j env).failures_listed =
      (((hal_build_matrix path c j env).results).filter fun r => !r.success).map
        (fun r => (r.profile_name, r.log_file)) ∧
    (∀ ps, generate_all_profiles = some ps →
      (hal_build_matrix path c j env).results.length = ps.length) := by
  have hpre := install_phase_all_ok path env.install_behavior gen_profiles 0 hinst
  simp only [hal_build_matrix, generate_all_profiles_eq_gen, hcon, if_true, hpre]
  have hs := summary_spec
    ((gen_profiles.enum.map fun ip =>
      build_profile path ip.2 (env.build_behavior ip.1)).map Prod.fst)
  refine ⟨hs.1, hs.2.1, hs.2.2, trivial, ?_⟩
  intro ps hps
  obtain rfl := (Option.some.inj hps).symm
  simp [List.enum_length]

set_option maxRecDepth 100000 in
set_option maxHeartbeats 1000000 in
theorem build_matrix_exit_code_iff_witness :
    ((hal_build_matrix "/proj" false 4 env_all_ok).result = .ok 0 ↔
      ∀ r ∈ (hal_build_matrix "/proj" false 4 env_all_ok).results, r.success = true) ∧
    ((hal_build_matrix "/proj" false 4 env_all_ok).result = .ok 1 ↔
      ∃ r ∈ (hal_build_matrix "/proj" false 4 env_all_ok).results, r.success = false) ∧
    ((hal_build_matrix "/proj" false 4 env_all_ok).result = .ok 0 ∨
      (hal_build_matrix "/proj" false 4 env_all_ok).result = .ok 1) ∧
    (hal_build_matrix "/proj" false 4 env_all_ok).failures_listed =
      (((hal_build_matrix "/proj" false 4 env_all_ok).results).filter fun r => !r.success).map
        (fun r => (r.profile_name, r.log_file)) ∧
    (∀ ps, generate_all_profiles = some ps →
      (hal_build_matrix "/proj" false 4 env_all_ok).results.length = ps.length) :=
  build_matrix_exit_code_iff "/proj" false 4 env_all_ok rfl (fun _ => rfl)

theorem hal_build_matrix_aborted (path : String) (c : Bool) (j : Nat)
    (env : MatrixEnv) (ps0 : List Profile) (n : Nat) (q : Profile)
    (hps0 : generate_all_profiles = some ps0)
    (hcon : env.conanfile_exists = true)
    (hq : ps0.get? n = some q)
    (hok : ∀ k, k < n → completes_ok 30 (env.install_behavior k) = true)
    (hfail : completes_ok 30 (env.install_behavior n) = false) :
    ∃ e, (hal_build_matrix path c j env).result = .error (.subprocess e) ∧
      (hal_build_matrix path c j env).installs_run =
        (ps0.take (n + 1)).map (fun p => (install_call path p).argv) ∧
      (hal_build_matrix path c j env).install_logs =
        (ps0.take (n + 1)).map install_log_line ∧
      (hal_build_matrix path c j env).install_logs.getLast? =
        some (install_log_line q) ∧
      (hal_build_matrix path c j env).results = [] ∧
      (hal_build_matrix path c j env).logs = [] ∧
      (hal_build_matrix path c j env).failures_listed = [] := by
  obtain ⟨e, he, hlast⟩ :=
    install_phase_fails_at path env.install_behavior ps0 0 n q
      (fun k hk => by simpa using hok k hk) (by simpa using hfail) hq
  rw [List.map_take] at hlast
  refine ⟨e, ?_, ?_, ?_, ?_, ?_, ?_, ?_⟩ <;>
    simp [hal_build_matrix, hps0, hcon, he, hlast]

/-- C7: the first failing sequential install aborts the whole run as an
uncaught exception: installs stop at the failing profile, the parallel build
phase never runs (no job results, no build logs), and the last progress line
reported names the offending profile. -/
theorem install_failure_aborts_run (path : String) (c : Bool) (j : Nat)
    (env : MatrixEnv) (ps0 : List Profile) (n : Nat) (q : Profile)
    (hps0 : generate_all_profiles = some ps0)
    (hcon : env.conanfile_exists = true)
    (hq : ps0.get? n = some q)
    (hok : ∀ k, k < n → completes_ok 30 (env.install_behavior k) = true)
    (hfail : completes_ok 30 (env.install_behavior n) = false) :
    ∃ e, (hal_build_matrix path c j env).result = .error (.subprocess e) ∧
      (hal_build_matrix path c j env).installs_run =
        (ps0.take (n + 1)).map (fun p => (install_call path p).argv) ∧
      (hal_build_matrix path c j env).install_logs =
        (ps0.take (n + 1)).map install_log_line ∧
      (hal_build_matrix path c j env).install_logs.getLast? =
        some (install_log_line q) ∧
      (∃ pre post, install_log_line q = pre ++ q.name ++ post) ∧
      (hal_build_matrix path c j env).results = [] ∧
      (hal_build_matrix path c j env).logs = [] := by
  obtain ⟨e, h1, h2, h3, h4, h5, h6, h7⟩ :=
    hal_build_matrix_aborted path c j env ps0 n q hps0 hcon hq hok hfail
  refine ⟨e, h1, h2, h3, h4, ⟨"⚙️ Running Conan Install: ", "", ?_⟩, h5, h6⟩
  simp [install_log_line]

set_option maxRecDepth 100000 in
set_option maxHeartbeats 1000000 in
theorem install_failure_aborts_run_witness :
    ∃ e, (hal_build_matrix "/proj" false 4 env_install_fails).result =
        .error (.subprocess e) ∧
      (hal_build_matrix "/proj" false 4 env_install_fails).installs_run =
        (gen_profiles.take (0 + 1)).map (fun p => (install_call "/proj" p).argv) ∧
      (hal_build_matrix "/proj" false 4 env_install_fails).install_logs =
        (gen_profiles.take (0 + 1)).map install_log_line ∧
      (hal_build_matrix "/proj" false 4 env_install_fails).install_logs.getLast? =
        some (install_log_line (gen_profiles.getD 0 default)) ∧
      (∃ pre post, install_log_line (gen_profiles.getD 0 default) =
        pre ++ (gen_profiles.getD 0 default).name ++ post) ∧
      (hal_build_matrix "/proj" false 4 env_install_fails).results = [] ∧
      (hal_build_matrix "/proj" false 4 env_install_fails).logs = [] :=
  install_failure_aborts_run "/proj" false 4 env_install_fails gen_profiles 0
    (gen_profiles.getD 0 default) generate_all_profiles_eq_gen rfl (by rfl)
    (fun k hk => absurd hk (by omega)) rfl

/-- C10: the sequential install step runs with `check=True` and a 30-second
timeout (not the 300-second per-job timeout), so a non-zero install exit or
an install exceeding 30 seconds propagates as an uncaught exception out of
the command instead of becoming a `BuildProfileResult`. -/
theorem install_check_true_timeout_30 (path : String) (p : Profile) (c : Bool)
    (j : Nat) (env : MatrixEnv) (ps0 : List Profile) (n : Nat) (q : Profile)
    (hps0 : generate_all_profiles = some ps0)
    (hcon : env.conanfile_exists = true)
    (hq : ps0.get? n = some q)
    (hok : ∀ k, k < n → completes_ok 30 (env.install_behavior k) = true)
    (hspawn : (env.install_behavior n).spawn_error = none)
    (hbad : (env.install_behavior n).returncode ≠ 0 ∨
      30 < (env.install_behavior n).duration) :
    (install_call path p).check = true ∧
    (install_call path p).timeout = some 30 ∧
    (build_call path p).timeout = some 300 ∧
    (install_call path p).timeout ≠ (build_call path p).timeout ∧
    (∃ e, (hal_build_matrix path c j env).result = .error (.subprocess e)) ∧
    (hal_build_matrix path c j env).results = [] ∧
    (hal_build_matrix path c j env).failures_listed = [] := by
  have hfail : completes_ok 30 (env.install_behavior n) = false := by
    rcases hbad with hrc | hdur
    · simp [completes_ok, hrc]
    · have hd : decide ((env.install_behavior n).duration ≤ 30) = false := by
        simp
        omega
      simp [completes_ok, hd]
  obtain ⟨e, h1, _, _, _, h5, _, h7⟩ :=
    hal_build_matrix_aborted path c j env ps0 n q hps0 hcon hq hok hfail
  exact ⟨rfl, rfl, rfl, by simp [install_call, build_call], ⟨e, h1⟩, h5, h7⟩

set_option maxRecDepth 100000 in
set_option maxHeartbeats 1000000 in
theorem install_check_true_timeout_30_witness :
    (install_call "/proj" (gen_profiles.getD 0 default)).check = true ∧
    (install_call "/proj" (gen_profiles.getD 0 default)).timeout = some 30 ∧
    (build_call "/proj" (gen_profiles.getD 0 default)).timeout = some 300 ∧
    (install_call "/proj" (gen_profiles.getD 0 default)).timeout ≠
      (build_call "/proj" (gen_profiles.getD 0 default)).timeout ∧
    (∃ e, (hal_build_matrix "/proj" false 4 env_install_slow).result =
      .error (.subprocess e)) ∧
    (hal_build_matrix "/proj" false 4 env_install_slow).results = [] ∧
    (hal_build_matrix "/proj" false 4 env_install_slow).failures_listed = [] :=
  install_check_true_timeout_30 "/proj" (gen_profiles.getD 0 default) false 4
    env_install_slow gen_profiles 0 (gen_profiles.getD 0 default)
    generate_all_profiles_eq_gen rfl (by rfl)
    (fun k hk => absurd hk (by omega)) rfl (Or.inr (by decide))

end CmdHal
